import Mathlib

/-!
Verification development for a Go Modbus client library (RTU / TCP / ASCII
framers, client request builders, RTU transporter read logic, device
blacklist).  Go byte slices are modelled as `List Nat` whose elements are
below 256 where the Go type is `byte`; machine-integer conversions are
modelled by explicit `% 2^w`.  Go functions that can panic on out-of-range
slicing are modelled with an `Option` result whose `none` arm marks the
panic; a Go `(value, err)` pair is modelled as a pair whose second component
is the "err ≠ nil" flag.
-/

namespace Modbus

/-- The transport-independent protocol data unit: a function code (one byte)
and an opaque data payload. -/
structure ProtocolDataUnit where
  functionCode : Nat
  data : List Nat
  deriving Repr, DecidableEq

/-- Modelled from the spec: `rtu_min = 4` (the constant file is not in the
sources; §3 of the spec fixes RTU ADU size 4..256). -/
def rtuMinSize : Nat := 4

/-- Modelled from the spec: `rtu_max = 256`. -/
def rtuMaxSize : Nat := 256

/-- Modelled from the spec: the RTU exception frame is 5 bytes ("read up to 5
bytes (exception frame)"). -/
def rtuExceptionSize : Nat := 5

/-- Modelled from the spec: the MBAP header is 7 bytes. -/
def tcpHeaderSize : Nat := 7

/-- Modelled from the spec: the TCP protocol identifier is 0x0000. -/
def tcpProtocolIdentifier : Nat := 0

/-- Modelled from the spec: maximum TCP ADU size, 260 bytes. -/
def tcpMaxLength : Nat := 260

/-- Modelled from the spec: an ASCII frame starts with the colon character. -/
def asciiStart : List Nat := [58]

/-- Modelled from the spec: an ASCII frame ends with carriage return and
line feed. -/
def asciiEnd : List Nat := [13, 10]

/-- Modelled from the spec: the minimum-size constant used by the ASCII
verifier; `asciiMinSize + 6 = 9` matches the error message "does not meet
minimum '9'" in the source. -/
def asciiMinSize : Nat := 3

/-- Modelled from the spec: character codes of the uppercase hex table
"0123456789ABCDEF". -/
def asciiHexTable : List Nat :=
  [48, 49, 50, 51, 52, 53, 54, 55, 56, 57, 65, 66, 67, 68, 69, 70]

/-- Function code 0x01. -/
def FuncCodeReadCoils : Nat := 0x01
/-- Function code 0x02. -/
def FuncCodeReadDiscreteInputs : Nat := 0x02
/-- Function code 0x03. -/
def FuncCodeReadHoldingRegisters : Nat := 0x03
/-- Function code 0x04. -/
def FuncCodeReadInputRegisters : Nat := 0x04
/-- Function code 0x05. -/
def FuncCodeWriteSingleCoil : Nat := 0x05
/-- Function code 0x06. -/
def FuncCodeWriteSingleRegister : Nat := 0x06
/-- Function code 0x0F. -/
def FuncCodeWriteMultipleCoils : Nat := 0x0F
/-- Function code 0x10. -/
def FuncCodeWriteMultipleRegisters : Nat := 0x10
/-- Function code 0x16. -/
def FuncCodeMaskWriteRegister : Nat := 0x16
/-- Function code 0x17. -/
def FuncCodeReadWriteMultipleRegisters : Nat := 0x17
/-- Function code 0x18. -/
def FuncCodeReadFIFOQueue : Nat := 0x18

/-- `binary.BigEndian.Uint16(b[i:])`: the big-endian 16-bit word assembled
from two bytes, `uint16(b[i])<<8 | uint16(b[i+1])`. -/
def be16 (b : List Nat) (i : Nat) : Nat :=
  (b.getD i 0) <<< 8 ||| b.getD (i + 1) 0

/-- One step of the CRC-16 register update.  Modelled from the spec:
polynomial 0xA001, right-shifting register (the table-driven Go code
computes the same function byte-wise). -/
def crcRound (x : Nat) : Nat :=
  if x % 2 = 1 then (x >>> 1) ^^^ 0xA001 else x >>> 1

/-- Iterate `crcRound`. -/
def crcRounds : Nat → Nat → Nat
  | 0, x => x
  | n + 1, x => crcRounds n (crcRound x)

/-- Feed one input byte into the CRC-16 register.  Modelled from the spec:
the byte is XORed into the low half and eight polynomial rounds are run. -/
def crcPushByte (c b : Nat) : Nat :=
  crcRounds 8 (c ^^^ b)

/-- Modelled from the spec: CRC-16 (Modbus), initial value 0xFFFF, over a
byte sequence; `crc.reset().pushBytes(...)` followed by `crc.value()`. -/
def crc16 (bs : List Nat) : Nat :=
  bs.foldl crcPushByte 0xFFFF

/-- Modelled from the spec: LRC is the byte-wise sum modulo 256,
two's-complement negated: `lrc = (-sum) & 0xFF`. -/
def lrcValue (bs : List Nat) : Nat :=
  (256 - bs.foldl (fun s b => (s + b) % 256) 0) % 256

/-- Modelled from the spec: `data_block(v1, v2, …)` serializes each 16-bit
word in big-endian order, concatenated. -/
def dataBlock : List Nat → List Nat
  | [] => []
  | v :: rest => ((v >>> 8) % 256) :: (v % 256) :: dataBlock rest

/-- Decoder for one hex character, as accepted by Go `encoding/hex`
(digits, lowercase and uppercase letters). -/
def hexDigit (c : Nat) : Option Nat :=
  if 48 ≤ c ∧ c ≤ 57 then some (c - 48)
  else if 97 ≤ c ∧ c ≤ 102 then some (c - 87)
  else if 65 ≤ c ∧ c ≤ 70 then some (c - 55)
  else none

/-- `writeHex` for a single byte: the two uppercase hex characters
`asciiHexTable[v>>4]`, `asciiHexTable[v&0x0F]`. -/
def writeHexByte (b : Nat) : List Nat :=
  [asciiHexTable.getD (b >>> 4) 0, asciiHexTable.getD (b &&& 0x0F) 0]

/-- `writeHex` over a byte sequence: each byte becomes two hex characters. -/
def writeHexBytes : List Nat → List Nat
  | [] => []
  | b :: rest => writeHexByte b ++ writeHexBytes rest

/-- Go `hex.Decode`: decodes hex-character pairs into bytes, returning the
successfully decoded prefix and whether decoding completed without error
(an odd trailing character or a non-hex character is an error). -/
def hexDecode : List Nat → List Nat × Bool
  | [] => ([], true)
  | [_] => ([], false)
  | a :: b :: rest =>
    match hexDigit a, hexDigit b with
    | some x, some y =>
      let r := hexDecode rest
      ((16 * x + y) :: r.1, r.2)
    | _, _ => ([], false)

/-- `readHex(data)`: decodes the first hex-character pair of `data` into one
byte.  `none` models the Go panic when `data` has fewer than two elements
(`data[0:2]` out of range); `some none` models a hex decoding error. -/
def readHex (data : List Nat) : Option (Option Nat) :=
  if data.length < 2 then none
  else
    match hexDigit (data.getD 0 0), hexDigit (data.getD 1 0) with
    | some x, some y => some (some (16 * x + y))
    | _, _ => some none

/-- `rtuClient.Encode`: frame `id | function | data | crc_lo | crc_hi`;
`none` is the "length of data must not be bigger than 256" error. -/
def rtuEncode (id : Nat) (pdu : ProtocolDataUnit) : Option (List Nat) :=
  let length := pdu.data.length + 4
  if length > rtuMaxSize then none
  else
    let frame := id :: pdu.functionCode :: pdu.data
    let checksum := crc16 frame
    some (frame ++ [checksum % 256, (checksum >>> 8) % 256])

/-- `rtuClient.Verify`: `some true` is Ok, `some false` an error return,
`none` the panic on `aduRequest[0]` when the request is empty. -/
def rtuVerify (aduRequest aduResponse : List Nat) : Option Bool :=
  if aduResponse.length < rtuMinSize then some false
  else if aduRequest.length = 0 then none
  else some (decide (aduResponse.getD 0 0 = aduRequest.getD 0 0))

/-- `rtuClient.Decode`: recompute the CRC over `adu[0:len-2]` and compare
with the wire checksum (low byte at `len-2`, high at `len-1`); a CRC
mismatch returns no PDU, a configured-id mismatch returns the decoded PDU
together with the error flag.  `none` models the panics on frames too short
for the slicing. -/
def rtuDecode (id : Nat) (adu : List Nat) : Option (Option ProtocolDataUnit × Bool) :=
  let length := adu.length
  if length < 2 then none
  else
    let checksum := (adu.getD (length - 1) 0) <<< 8 ||| adu.getD (length - 2) 0
    if checksum ≠ crc16 (adu.take (length - 2)) then some (none, true)
    else if length < 4 then none
    else
      some (some ⟨adu.getD 1 0, (adu.take (length - 2)).drop 2⟩,
        decide (id ≠ adu.getD 0 0))

/-- `tcpClient.Encode`: the transaction counter is atomically incremented
(wrapping at 2^32) and its low 16 bits are written big-endian, followed by
the protocol identifier, the length field `1 + 1 + len(data)`, the unit id,
the function code and the data.  The Go function has no error path. -/
def tcpEncode (transactionId id : Nat) (pdu : ProtocolDataUnit) : Nat × List Nat :=
  let txn := (transactionId + 1) % 4294967296
  let t := txn % 65536
  let lengthField := (1 + 1 + pdu.data.length) % 65536
  (txn,
    ((t >>> 8) % 256) :: (t % 256) ::
    ((tcpProtocolIdentifier >>> 8) % 256) :: (tcpProtocolIdentifier % 256) ::
    ((lengthField >>> 8) % 256) :: (lengthField % 256) ::
    id :: pdu.functionCode :: pdu.data)

/-- `tcpClient.Verify`: transaction id, protocol id and unit id of the
response must equal the request's.  `none` models the panics on frames too
short for the reads performed before each comparison. -/
def tcpVerify (aduRequest aduResponse : List Nat) : Option Bool :=
  if aduResponse.length < 2 ∨ aduRequest.length < 2 then none
  else if be16 aduResponse 0 ≠ be16 aduRequest 0 then some false
  else if aduResponse.length < 4 ∨ aduRequest.length < 4 then none
  else if be16 aduResponse 2 ≠ be16 aduRequest 2 then some false
  else if aduResponse.length < 7 ∨ aduRequest.length < 7 then none
  else some (decide (aduResponse.getD 6 0 = aduRequest.getD 6 0))

/-- `tcpClient.Decode`: checks the header length field (computed with
uint16 wraparound for `length - 1`) against the actual PDU length; a
configured-id mismatch at offset 6 returns the decoded PDU together with
the error flag. -/
def tcpDecode (id : Nat) (adu : List Nat) : Option (Option ProtocolDataUnit × Bool) :=
  if adu.length < 6 then none
  else
    let lengthField := be16 adu 4
    if adu.length ≤ tcpHeaderSize ∨
        adu.length - tcpHeaderSize ≠ (lengthField + 65535) % 65536 then
      some (none, true)
    else
      some (some ⟨adu.getD tcpHeaderSize 0, adu.drop (tcpHeaderSize + 1)⟩,
        decide (id ≠ adu.getD 6 0))

/-- `asciiClient.Encode`: colon, hex of id and function, hex of data, hex of
the LRC over the raw bytes, CRLF.  The Go error path (buffer write failure)
never fires for an in-memory buffer. -/
def asciiEncode (id : Nat) (pdu : ProtocolDataUnit) : List Nat :=
  asciiStart ++ writeHexBytes [id, pdu.functionCode] ++ writeHexBytes pdu.data ++
    writeHexBytes [lrcValue (id :: pdu.functionCode :: pdu.data)] ++ asciiEnd

/-- `asciiClient.Verify`: length at least 9, odd total length, colon first,
CRLF last, and the hex-decoded slave ids of response and request must
match.  `none` models the panic inside `readHex` on a too-short request. -/
def asciiVerify (aduRequest aduResponse : List Nat) : Option Bool :=
  if aduResponse.length < asciiMinSize + 6 then some false
  else if aduResponse.length % 2 ≠ 1 then some false
  else if aduResponse.take 1 ≠ asciiStart then some false
  else if aduResponse.drop (aduResponse.length - 2) ≠ asciiEnd then some false
  else
    match readHex (aduResponse.drop 1) with
    | none => none
    | some none => some false
    | some (some responseVal) =>
      match readHex (aduRequest.drop 1) with
      | none => none
      | some none => some false
      | some (some requestVal) => some (decide (responseVal = requestVal))

/-- `asciiClient.Decode`: hex-decode slave id (chars 1..3), function (chars
3..5), data (chars 5..len-4) and LRC (chars len-4..len-2), then recompute
and compare the LRC.  `none` models the panics on frames too short for the
fixed offsets; in every non-panicking path the Go function returns a
non-nil (possibly partially filled) PDU together with the error flag. -/
def asciiDecode (adu : List Nat) : Option (ProtocolDataUnit × Bool) :=
  match readHex (adu.drop 1) with
  | none => none
  | some none => some (⟨0, []⟩, true)
  | some (some address) =>
    match readHex (adu.drop 3) with
    | none => none
    | some none => some (⟨0, []⟩, true)
    | some (some fc) =>
      if adu.length < 9 then none
      else
        let dataEnd := adu.length - 4
        let dataChars := (adu.take dataEnd).drop 5
        let r := hexDecode dataChars
        let dataField := r.1 ++ List.replicate (dataChars.length / 2 - r.1.length) 0
        if r.2 = false then some (⟨fc, dataField⟩, true)
        else
          match readHex (adu.drop dataEnd) with
          | none => none
          | some none => some (⟨fc, dataField⟩, true)
          | some (some lrcVal) =>
            some (⟨fc, dataField⟩,
              decide (lrcVal ≠ lrcValue (address :: fc :: dataField)))

/-- A framer `Encode` seen from `MBClient`: the `(adu, err)` pair, with the
Go convention `adu = nil` on error. -/
def rtuEncodeResult (id : Nat) (pdu : ProtocolDataUnit) : List Nat × Bool :=
  match rtuEncode id pdu with
  | some adu => (adu, false)
  | none => ([], true)

/-- `MBClient.ReadCoils`, parametrised by the configured framer's `Encode`
(the `(adu, err)` pair it returns): the quantity must lie in 1..2000,
otherwise the PDU `0x01 | address | quantity` is encoded. -/
def MBClient.ReadCoils (encode : ProtocolDataUnit → List Nat × Bool)
    (address quantity : Nat) : List Nat × Bool :=
  if quantity < 1 ∨ quantity > 2000 then ([0], true)
  else encode ⟨FuncCodeReadCoils, dataBlock [address, quantity]⟩

/-- `RTUClient.ReadCoils`: same bounds check; its `rtuPackager.Encode` is
modelled from the spec as the §4.3 RTU encoder. -/
def RTUClient.ReadCoils (slaveId address quantity : Nat) : List Nat × Bool :=
  if quantity < 1 ∨ quantity > 2000 then ([0], true)
  else rtuEncodeResult slaveId ⟨FuncCodeReadCoils, dataBlock [address, quantity]⟩

/-- `MBClient.WriteSingleCoil`, parametrised by the framer's `Encode`: the
value must be 0xFF00 (ON) or 0x0000 (OFF). -/
def MBClient.WriteSingleCoil (encode : ProtocolDataUnit → List Nat × Bool)
    (address value : Nat) : List Nat × Bool :=
  if value ≠ 0xFF00 ∧ value ≠ 0x0000 then ([0], true)
  else encode ⟨FuncCodeWriteSingleCoil, dataBlock [address, value]⟩

/-- `MBClient.WriteSingleCoilBool`: maps the boolean to 0xFF00 / 0x0000 and
encodes directly (no further check). -/
def MBClient.WriteSingleCoilBool (encode : ProtocolDataUnit → List Nat × Bool)
    (address : Nat) (value : Bool) : List Nat × Bool :=
  encode ⟨FuncCodeWriteSingleCoil, dataBlock [address, if value then 0xFF00 else 0x0000]⟩

/-- `calculateResponseLength`: predicted RTU response size from the request
ADU; `count` is the big-endian word at offsets 4..6.  `none` models the
panics on requests too short for `adu[1]` or `adu[4:6]`. -/
def calculateResponseLength (adu : List Nat) : Option Nat :=
  if adu.length < 2 then none
  else
    let fc := adu.getD 1 0
    if fc = FuncCodeReadDiscreteInputs ∨ fc = FuncCodeReadCoils then
      if adu.length < 6 then none
      else
        let count := be16 adu 4
        some (rtuMinSize + 1 + count / 8 + (if count % 8 ≠ 0 then 1 else 0))
    else if fc = FuncCodeReadInputRegisters ∨ fc = FuncCodeReadHoldingRegisters ∨
        fc = FuncCodeReadWriteMultipleRegisters then
      if adu.length < 6 then none
      else some (rtuMinSize + 1 + be16 adu 4 * 2)
    else if fc = FuncCodeWriteSingleCoil ∨ fc = FuncCodeWriteMultipleCoils ∨
        fc = FuncCodeWriteSingleRegister ∨ fc = FuncCodeWriteMultipleRegisters then
      some (rtuMinSize + 4)
    else if fc = FuncCodeMaskWriteRegister then
      some (rtuMinSize + 6)
    else
      some rtuMinSize

/-- The read-completion logic of `rtuTransporter.Send` after the first
read: `data` are the bytes obtained by `io.ReadAtLeast`, `n` their count.
Returns the total byte count the function will have read, modelling each
`io.ReadFull` as reading exactly the requested count; `none` propagates a
panic from `calculateResponseLength`.  Note the source computes
`functionFail := aduRequest[1] & 0x80`. -/
def rtuSendReadTotal (aduRequest data : List Nat) (n : Nat) : Option Nat :=
  match calculateResponseLength aduRequest with
  | none => none
  | some bytesToRead =>
    let function := aduRequest.getD 1 0
    let functionFail := function &&& 0x80
    if data.getD 1 0 = function then
      if n < bytesToRead then
        if bytesToRead > rtuMinSize ∧ bytesToRead ≤ rtuMaxSize then
          if bytesToRead > n then some (n + (bytesToRead - n)) else some n
        else some n
      else some n
    else if data.getD 1 0 = functionFail then
      if n < rtuExceptionSize then some (n + (rtuExceptionSize - n)) else some n
    else some n

/-- The blacklist state: the fault-count map (`hasList` is "the Go map is
non-nil", `counts` its contents with absent keys reading 0, wrapping as the
Go `uint16` counters do), the limit, and whether the `nblock` callback is
set. -/
structure Blacklist where
  limit : Nat
  hasList : Bool
  counts : Nat → Nat
  hasBlockCallback : Bool

/-- `blacklist.Get`: returns the updated state, the `(blocked, notresponse)`
pair, and whether this call invoked the `on_device_blocked` callback (the
Go code calls `nblock(id)` when the stored count equals the limit, before
incrementing). -/
def Blacklist.Get (bl : Blacklist) (id : Nat) : Blacklist × (Bool × Nat) × Bool :=
  if bl.hasList = false ∨ bl.limit = 0 then (bl, (false, 0), false)
  else
    let fired := bl.hasBlockCallback && decide (bl.counts id = bl.limit)
    let c := (bl.counts id + 1) % 65536
    ({ bl with counts := fun j => if j = id then c else bl.counts j },
      (decide (c > bl.limit), c), fired)

/-! ### Arithmetic helper lemmas -/

theorem shiftLeft8_lor_eq {a b : Nat} (hb : b < 256) : (a <<< 8) ||| b = a * 256 + b := by
  have hb' : b < 2 ^ 8 := hb
  apply Nat.eq_of_testBit_eq
  intro i
  rw [Nat.testBit_or, Nat.testBit_shiftLeft]
  rcases Nat.lt_or_ge i 8 with h | h
  · have hd : decide (8 ≤ i) = false := by simp; omega
    rw [hd]
    simp only [Bool.false_and, Bool.false_or]
    rw [Nat.testBit_to_div_mod, Nat.testBit_to_div_mod]
    have h256 : a * 256 = 2 ^ i * (a * 2 ^ (8 - i)) := by
      rw [← Nat.mul_assoc, Nat.mul_comm (2 ^ i) a, Nat.mul_assoc, ← pow_add,
        show i + (8 - i) = 8 by omega]
      norm_num
    rw [h256, Nat.mul_add_div (Nat.two_pow_pos i)]
    have hx : a * 2 ^ (8 - i) = 2 * (a * 2 ^ (7 - i)) := by
      rw [show (8 - i) = (7 - i) + 1 by omega, pow_succ]
      ring
    rw [hx, Nat.add_comm, Nat.mul_comm, Nat.add_mul_mod_self_right]
  · obtain ⟨j, rfl⟩ : ∃ j, i = 8 + j := ⟨i - 8, by omega⟩
    have hd : decide (8 ≤ 8 + j) = true := by simp
    rw [hd]
    simp only [Bool.true_and]
    have hbt : b.testBit (8 + j) = false :=
      Nat.testBit_lt_two_pow (lt_of_lt_of_le hb' (Nat.pow_le_pow_right (by norm_num) h))
    rw [hbt, Bool.or_false, show 8 + j - 8 = j by omega]
    rw [Nat.testBit_to_div_mod, Nat.testBit_to_div_mod]
    have hdiv : (a * 256 + b) / 2 ^ (8 + j) = a / 2 ^ j := by
      rw [pow_add, ← Nat.div_div_eq_div_mul]
      congr 1
      rw [show a * 256 = 2 ^ 8 * a by ring, Nat.mul_add_div (by norm_num),
        Nat.div_eq_of_lt hb', Nat.add_zero]
    rw [hdiv]

theorem hi_lo_recombine {c : Nat} (hc : c < 65536) :
    (((c >>> 8) % 256) <<< 8) ||| (c % 256) = c := by
  have h1 : c >>> 8 = c / 256 := by
    rw [Nat.shiftRight_eq_div_pow]
  have h2 : c / 256 < 256 := by omega
  rw [h1, Nat.mod_eq_of_lt h2, shiftLeft8_lor_eq (Nat.mod_lt _ (by norm_num))]
  omega

/-! ### CRC register bounds -/

theorem crcRound_lt {x : Nat} (h : x < 65536) : crcRound x < 65536 := by
  have hx : x >>> 1 < 65536 := by
    rw [Nat.shiftRight_eq_div_pow, pow_one]
    omega
  unfold crcRound
  split
  · have : (x >>> 1) ^^^ 0xA001 < 2 ^ 16 :=
      Nat.xor_lt_two_pow (by norm_num at hx ⊢; omega) (by norm_num)
    norm_num at this
    omega
  · exact hx

theorem crcRounds_lt : ∀ (n : Nat) {x : Nat}, x < 65536 → crcRounds n x < 65536
  | 0, _, h => h
  | n + 1, _, h => crcRounds_lt n (crcRound_lt h)

theorem crcPushByte_lt {c b : Nat} (hc : c < 65536) (hb : b < 65536) :
    crcPushByte c b < 65536 := by
  apply crcRounds_lt
  have : c ^^^ b < 2 ^ 16 := Nat.xor_lt_two_pow (by norm_num; omega) (by norm_num; omega)
  norm_num at this
  omega

theorem foldl_crcPushByte_lt :
    ∀ (bs : List Nat) {c : Nat}, c < 65536 → (∀ b ∈ bs, b < 65536) →
      bs.foldl crcPushByte c < 65536
  | [], _, hc, _ => hc
  | b :: rest, c, hc, hbs => by
    simp only [List.foldl_cons]
    exact foldl_crcPushByte_lt rest (crcPushByte_lt hc (hbs b (by simp)))
      (fun x hx => hbs x (by simp [hx]))

theorem crc16_lt {bs : List Nat} (h : ∀ b ∈ bs, b < 65536) : crc16 bs < 65536 :=
  foldl_crcPushByte_lt bs (by norm_num) h

/-! ### Hex encoding helper lemmas -/

set_option maxRecDepth 4000 in
theorem hexDigit_table : ∀ n < 16, hexDigit (asciiHexTable.getD n 0) = some n := by
  decide

set_option maxRecDepth 40000 in
theorem byte_nibbles : ∀ b < 256, 16 * (b >>> 4) + (b &&& 0x0F) = b := by
  decide

set_option maxRecDepth 40000 in
theorem shiftRight4_lt : ∀ b < 256, b >>> 4 < 16 := by
  decide

theorem and15_lt (b : Nat) : b &&& 0x0F < 16 :=
  @Nat.and_lt_two_pow b 0x0F 4 (by norm_num)

theorem writeHexBytes_length (bs : List Nat) : (writeHexBytes bs).length = 2 * bs.length := by
  induction bs with
  | nil => rfl
  | cons b rest ih =>
    simp only [writeHexBytes, writeHexByte, List.length_append, List.length_cons,
      List.length_nil, ih]
    omega

theorem hexDecode_writeHexBytes {bs : List Nat} (h : ∀ b ∈ bs, b < 256) :
    hexDecode (writeHexBytes bs) = (bs, true) := by
  induction bs with
  | nil => rfl
  | cons b rest ih =>
    have hb : b < 256 := h b (by simp)
    simp only [writeHexBytes, writeHexByte, List.cons_append, List.nil_append, List.append_eq,
      hexDecode, hexDigit_table (b >>> 4) (shiftRight4_lt b hb),
      hexDigit_table (b &&& 0x0F) (and15_lt b), byte_nibbles b hb,
      ih (fun x hx => h x (by simp [hx]))]

theorem readHex_writeHexByte {b : Nat} (hb : b < 256) (rest : List Nat) :
    readHex (writeHexByte b ++ rest) = some (some b) := by
  simp only [writeHexByte, List.cons_append, List.nil_append, readHex, List.length_cons,
    List.getD_cons_zero, List.getD_cons_succ]
  rw [if_neg (by omega), hexDigit_table (b >>> 4) (shiftRight4_lt b hb),
    hexDigit_table (b &&& 0x0F) (and15_lt b)]
  show some (some (16 * (b >>> 4) + (b &&& 0x0F))) = some (some b)
  rw [byte_nibbles b hb]

/-! ### RTU framer round trip -/

theorem rtuEncode_eq {id fc : Nat} {data : List Nat} (hlen : data.length ≤ 252) :
    rtuEncode id ⟨fc, data⟩ =
      some ((id :: fc :: data) ++
        [crc16 (id :: fc :: data) % 256, (crc16 (id :: fc :: data) >>> 8) % 256]) := by
  simp only [rtuEncode, rtuMaxSize]
  rw [if_neg (by simp; omega)]

theorem rtuDecode_rtuEncode {id fc : Nat} {data : List Nat} (hid : id < 256) (hfc : fc < 256)
    (hdata : ∀ b ∈ data, b < 256) :
    rtuDecode id ((id :: fc :: data) ++
        [crc16 (id :: fc :: data) % 256, (crc16 (id :: fc :: data) >>> 8) % 256]) =
      some (some ⟨fc, data⟩, false) := by
  set frame : List Nat := id :: fc :: data with hframe
  set c : Nat := crc16 frame with hc
  have hcb : c < 65536 := by
    apply crc16_lt
    intro b hb
    simp only [hframe, List.mem_cons] at hb
    rcases hb with rfl | rfl | hb
    · omega
    · omega
    · exact lt_trans (hdata b hb) (by norm_num)
  have hflen : frame.length = data.length + 2 := by simp [hframe]
  set adu : List Nat := frame ++ [c % 256, (c >>> 8) % 256] with hadu
  have hlen : adu.length = data.length + 4 := by
    simp [hadu, hflen]
  have hhi : adu.getD (adu.length - 1) 0 = (c >>> 8) % 256 := by
    rw [hadu, List.getD_eq_getElem?_getD, List.getElem?_append_right (by simp [hflen])]
    rw [hadu] at hlen
    rw [show (frame ++ [c % 256, (c >>> 8) % 256]).length - 1 - frame.length = 1 by omega]
    simp
  have hlo : adu.getD (adu.length - 2) 0 = c % 256 := by
    rw [hadu, List.getD_eq_getElem?_getD, List.getElem?_append_right (by simp [hflen])]
    rw [hadu] at hlen
    rw [show (frame ++ [c % 256, (c >>> 8) % 256]).length - 2 - frame.length = 0 by omega]
    simp
  have htake : adu.take (adu.length - 2) = frame := by
    rw [hadu]
    rw [hadu] at hlen
    exact List.take_left' (by omega)
  have hg1 : adu.getD 1 0 = fc := by
    rw [hadu, List.getD_eq_getElem?_getD,
      List.getElem?_append_left (by rw [hflen]; omega), hframe]
    simp
  have hg0 : adu.getD 0 0 = id := by
    rw [hadu, List.getD_eq_getElem?_getD,
      List.getElem?_append_left (by rw [hflen]; omega), hframe]
    simp
  simp only [rtuDecode]
  rw [if_neg (by omega)]
  rw [hhi, hlo, htake, hi_lo_recombine hcb, ← hc]
  rw [if_neg (by simp)]
  rw [if_neg (by omega)]
  rw [hg1, hg0, hframe]
  simp

theorem rtuVerify_self {req : List Nat} (h4 : 4 ≤ req.length) :
    rtuVerify req req = some true := by
  simp only [rtuVerify, rtuMinSize]
  rw [if_neg (by omega), if_neg (by omega)]
  simp

/-! ### TCP framer round trip -/

theorem tcpEncode_snd_eq {txn id fc : Nat} {data : List Nat} (hlen : data.length ≤ 252) :
    (tcpEncode txn id ⟨fc, data⟩).2 =
      (((((txn + 1) % 4294967296) % 65536) >>> 8) % 256) ::
      ((((txn + 1) % 4294967296) % 65536) % 256) ::
      0 :: 0 :: 0 :: (2 + data.length) :: id :: fc :: data := by
  have e0 : (1 + 1 + data.length) % 65536 = 2 + data.length := by omega
  have e2 : ((2 + data.length) >>> 8) % 256 = 0 := by
    rw [Nat.shiftRight_eq_div_pow]
    norm_num
    omega
  have e3 : (2 + data.length) % 256 = 2 + data.length := by omega
  simp only [tcpEncode, tcpProtocolIdentifier, e0, e2, e3, Nat.zero_shiftRight, Nat.zero_mod]

theorem tcpRoundtrip {txn id fc : Nat} {data : List Nat} (hlen : data.length ≤ 252) :
    tcpDecode id (tcpEncode txn id ⟨fc, data⟩).2 = some (some ⟨fc, data⟩, false) ∧
    tcpVerify (tcpEncode txn id ⟨fc, data⟩).2 (tcpEncode txn id ⟨fc, data⟩).2 = some true := by
  rw [tcpEncode_snd_eq hlen]
  set t : Nat := ((txn + 1) % 4294967296) % 65536 with ht
  set lit : List Nat :=
    ((t >>> 8) % 256) :: (t % 256) :: 0 :: 0 :: 0 :: (2 + data.length) :: id :: fc :: data
    with hlit
  have hlen8 : lit.length = data.length + 8 := by simp [hlit]
  have g4 : lit.getD 4 0 = 0 := rfl
  have g5 : lit.getD (4 + 1) 0 = 2 + data.length := rfl
  have g6 : lit.getD 6 0 = id := rfl
  have g7 : lit.getD 7 0 = fc := rfl
  have gd : lit.drop 8 = data := rfl
  constructor
  · simp only [tcpDecode, be16, g4, g5, g7, g6, gd, hlen8, Nat.zero_shiftLeft, Nat.zero_or,
      tcpHeaderSize]
    rw [if_neg (by omega), if_neg (by omega)]
    simp
  · simp only [tcpVerify, hlen8]
    rw [if_neg (by omega), if_neg (by simp), if_neg (by omega), if_neg (by simp),
      if_neg (by omega)]
    simp

/-! ### ASCII framer round trip -/

theorem lrcValue_lt (bs : List Nat) : lrcValue bs < 256 :=
  Nat.mod_lt _ (by norm_num)

theorem asciiRoundtrip {id fc : Nat} {data : List Nat} (hid : id < 256) (hfc : fc < 256)
    (hdata : ∀ b ∈ data, b < 256) :
    asciiDecode (asciiEncode id ⟨fc, data⟩) = some (⟨fc, data⟩, false) ∧
    asciiVerify (asciiEncode id ⟨fc, data⟩) (asciiEncode id ⟨fc, data⟩) = some true := by
  set W : List Nat := writeHexBytes data with hW
  set L : Nat := lrcValue (id :: fc :: data) with hL
  have hLlt : L < 256 := lrcValue_lt _
  have hshape : asciiEncode id ⟨fc, data⟩ =
      58 :: (writeHexByte id ++ (writeHexByte fc ++ (W ++ (writeHexByte L ++ [13, 10])))) := by
    simp [asciiEncode, asciiStart, asciiEnd, writeHexBytes, hW, hL]
  rw [hshape]
  set adu : List Nat :=
    58 :: (writeHexByte id ++ (writeHexByte fc ++ (W ++ (writeHexByte L ++ [13, 10]))))
    with hadu
  have hWlen : W.length = 2 * data.length := writeHexBytes_length data
  have hlen : adu.length = 2 * data.length + 9 := by
    rw [hadu]
    simp [writeHexByte]
    omega
  have hdrop1 : adu.drop 1 =
      writeHexByte id ++ (writeHexByte fc ++ (W ++ (writeHexByte L ++ [13, 10]))) := by
    rw [hadu]
    rfl
  have hdrop3 : adu.drop 3 = writeHexByte fc ++ (W ++ (writeHexByte L ++ [13, 10])) := by
    rw [hadu]
    rfl
  have hr1 : readHex (adu.drop 1) = some (some id) := by
    rw [hdrop1, readHex_writeHexByte hid]
  have hr3 : readHex (adu.drop 3) = some (some fc) := by
    rw [hdrop3, readHex_writeHexByte hfc]
  have hPsplit : adu = (58 :: (writeHexByte id ++ writeHexByte fc)) ++
      (W ++ (writeHexByte L ++ [13, 10])) := by
    rw [hadu]
    simp [writeHexByte]
  have hPlen : (58 :: (writeHexByte id ++ writeHexByte fc) : List Nat).length = 5 := by
    simp [writeHexByte]
  have hdataEnd : adu.length - 4 = 2 * data.length + 5 := by
    omega
  have htake5 : adu.take (2 * data.length + 5) =
      (58 :: (writeHexByte id ++ writeHexByte fc)) ++ W := by
    rw [hPsplit,
      show 2 * data.length + 5 =
        (58 :: (writeHexByte id ++ writeHexByte fc) : List Nat).length + 2 * data.length by
          rw [hPlen]; omega,
      List.take_append]
    congr 1
    exact List.take_left' hWlen
  have hdc : ((58 :: (writeHexByte id ++ writeHexByte fc)) ++ W).drop 5 = W :=
    List.drop_left' hPlen
  have hdrop54 : adu.drop (2 * data.length + 5) = writeHexByte L ++ [13, 10] := by
    rw [hPsplit,
      show 2 * data.length + 5 =
        (58 :: (writeHexByte id ++ writeHexByte fc) : List Nat).length + 2 * data.length by
          rw [hPlen]; omega,
      List.drop_append]
    exact List.drop_left' hWlen
  have hdecW : hexDecode W = (data, true) := by
    rw [hW]
    exact hexDecode_writeHexBytes hdata
  constructor
  · simp only [asciiDecode, hr1, hr3]
    rw [if_neg (by omega)]
    rw [hdataEnd, htake5, hdc, hdecW, hdrop54, readHex_writeHexByte hLlt]
    simp [hWlen, hL]
  · simp only [asciiVerify, asciiMinSize, hr1]
    rw [if_neg (by omega), if_neg (by omega),
      if_neg (by rw [hadu]; simp [asciiStart]),
      if_neg (by
        rw [hlen, show 2 * data.length + 9 - 2 = 2 * data.length + 7 by omega, hPsplit,
          show 2 * data.length + 7 =
            (58 :: (writeHexByte id ++ writeHexByte fc) : List Nat).length +
              (2 * data.length + 2) by rw [hPlen]; omega,
          List.drop_append,
          show 2 * data.length + 2 = W.length + 2 by omega,
          List.drop_append]
        simp [writeHexByte, asciiEnd])]
    simp

/-! ### Claim theorems -/

/-- C1: for each of the three framers with any configured id (a byte), and
every PDU with a byte payload of at most 252 bytes, `Decode (Encode pdu)`
succeeds and returns a PDU with the same function code and data, and
`Verify req req` returns Ok for the request produced by `Encode`. -/
theorem claim_C1_roundtrip (txn id fc : Nat) (data : List Nat) (hid : id < 256)
    (hfc : fc < 256) (hdata : ∀ b ∈ data, b < 256) (hlen : data.length ≤ 252) :
    (∃ adu, rtuEncode id ⟨fc, data⟩ = some adu ∧
      rtuDecode id adu = some (some ⟨fc, data⟩, false) ∧
      rtuVerify adu adu = some true) ∧
    (tcpDecode id (tcpEncode txn id ⟨fc, data⟩).2 = some (some ⟨fc, data⟩, false) ∧
      tcpVerify (tcpEncode txn id ⟨fc, data⟩).2 (tcpEncode txn id ⟨fc, data⟩).2 = some true) ∧
    (asciiDecode (asciiEncode id ⟨fc, data⟩) = some (⟨fc, data⟩, false) ∧
      asciiVerify (asciiEncode id ⟨fc, data⟩) (asciiEncode id ⟨fc, data⟩) = some true) := by
  have h4 : 4 ≤ ((id :: fc :: data) ++
      [crc16 (id :: fc :: data) % 256, (crc16 (id :: fc :: data) >>> 8) % 256]).length := by
    simp only [List.length_append, List.length_cons]
    omega
  exact ⟨⟨_, rtuEncode_eq hlen, rtuDecode_rtuEncode hid hfc hdata, rtuVerify_self h4⟩,
    tcpRoundtrip hlen, asciiRoundtrip hid hfc hdata⟩

/-- Witness for C1 at id 0x11, ReadCoils PDU `01 | 00 13 00 13`, txn 0. -/
theorem claim_C1_roundtrip_witness :
    (∃ adu, rtuEncode 0x11 ⟨0x01, [0x00, 0x13, 0x00, 0x13]⟩ = some adu ∧
      rtuDecode 0x11 adu = some (some ⟨0x01, [0x00, 0x13, 0x00, 0x13]⟩, false) ∧
      rtuVerify adu adu = some true) ∧
    (tcpDecode 0x11 (tcpEncode 0 0x11 ⟨0x01, [0x00, 0x13, 0x00, 0x13]⟩).2 =
        some (some ⟨0x01, [0x00, 0x13, 0x00, 0x13]⟩, false) ∧
      tcpVerify (tcpEncode 0 0x11 ⟨0x01, [0x00, 0x13, 0x00, 0x13]⟩).2
        (tcpEncode 0 0x11 ⟨0x01, [0x00, 0x13, 0x00, 0x13]⟩).2 = some true) ∧
    (asciiDecode (asciiEncode 0x11 ⟨0x01, [0x00, 0x13, 0x00, 0x13]⟩) =
        some (⟨0x01, [0x00, 0x13, 0x00, 0x13]⟩, false) ∧
      asciiVerify (asciiEncode 0x11 ⟨0x01, [0x00, 0x13, 0x00, 0x13]⟩)
        (asciiEncode 0x11 ⟨0x01, [0x00, 0x13, 0x00, 0x13]⟩) = some true) :=
  claim_C1_roundtrip 0 0x11 0x01 [0x00, 0x13, 0x00, 0x13]
    (by norm_num) (by norm_num) (by decide) (by decide)

set_option maxRecDepth 100000 in
/-- C2 counterexample: the CRC-16 of `11 01 00 13 00 13` is 0x928E, not
0x840E, so ReadCoils(0x11, 0x0013, 0x0013) does not return the ADU the
claim names. -/
theorem claim_C2_counterexample :
    crc16 [0x11, 0x01, 0x00, 0x13, 0x00, 0x13] ≠ 0x840E ∧
    MBClient.ReadCoils (rtuEncodeResult 0x11) 0x0013 0x0013 ≠
      ([0x11, 0x01, 0x00, 0x13, 0x00, 0x13, 0x0E, 0x84], false) := by
  decide

set_option maxRecDepth 100000 in
/-- C2 amended: ReadCoils(0x11, 0x0013, 0x0013) on the RTU framer returns
the 8-byte ADU `11 01 00 13 00 13 8E 92`; the CRC-16 of the first six bytes
is 0x928E, written low byte (0x8E) at offset len-2 and high byte (0x92) at
offset len-1. -/
theorem claim_C2_amended_thm :
    MBClient.ReadCoils (rtuEncodeResult 0x11) 0x0013 0x0013 =
      ([0x11, 0x01, 0x00, 0x13, 0x00, 0x13, 0x8E, 0x92], false) ∧
    crc16 [0x11, 0x01, 0x00, 0x13, 0x00, 0x13] = 0x928E := by
  decide

set_option maxRecDepth 100000 in
/-- C3 counterexample: on a 253-byte payload, the TCP encoder returns a
261-byte ADU (> 260) and the ASCII encoder a 515-character frame (> 513);
neither Go function has an error path (`err` is always nil). -/
theorem claim_C3_counterexample :
    260 < (tcpEncode 0 0 ⟨0x01, List.replicate 253 0⟩).2.length ∧
    513 < (asciiEncode 0 ⟨0x01, List.replicate 253 0⟩).length := by
  decide

/-- C3 amended: only the RTU encoder enforces its transport maximum (error
exactly when `len(data) + 4 > 256`); the TCP and ASCII encoders perform no
size check and always return the full assembled ADU. -/
theorem claim_C3_amended_thm (txn id : Nat) (pdu : ProtocolDataUnit) :
    (rtuEncode id pdu = none ↔ pdu.data.length + 4 > 256) ∧
    (tcpEncode txn id pdu).2.length = 8 + pdu.data.length ∧
    (asciiEncode id pdu).length = 9 + 2 * pdu.data.length := by
  refine ⟨?_, ?_, ?_⟩
  · simp only [rtuEncode, rtuMaxSize]
    split_ifs with h
    · simp [h]
    · simp [h]
  · simp only [tcpEncode, List.length_cons]
    omega
  · simp only [asciiEncode, asciiStart, asciiEnd, writeHexBytes, writeHexByte,
      List.length_append, List.length_cons, List.length_nil, writeHexBytes_length]
    omega

/-- C4: for every request ADU of length at least 6, the response-length
predictor returns exactly the spec-table value, where `count` is the
big-endian 16-bit word at offsets 4..6 (when the ADU holds bytes, that word
equals `adu[4] * 256 + adu[5]`). -/
theorem claim_C4_response_length (adu : List Nat) (h6 : 6 ≤ adu.length) :
    calculateResponseLength adu = some (
      if adu.getD 1 0 = 0x01 ∨ adu.getD 1 0 = 0x02 then 4 + 1 + (be16 adu 4 + 7) / 8
      else if adu.getD 1 0 = 0x03 ∨ adu.getD 1 0 = 0x04 ∨ adu.getD 1 0 = 0x17 then
        4 + 1 + be16 adu 4 * 2
      else if adu.getD 1 0 = 0x05 ∨ adu.getD 1 0 = 0x06 ∨ adu.getD 1 0 = 0x0F ∨
          adu.getD 1 0 = 0x10 then 8
      else if adu.getD 1 0 = 0x16 then 10
      else 4) ∧
    (adu.getD 5 0 < 256 → be16 adu 4 = adu.getD 4 0 * 256 + adu.getD 5 0) := by
  constructor
  · simp only [calculateResponseLength, rtuMinSize, FuncCodeReadCoils,
      FuncCodeReadDiscreteInputs, FuncCodeReadHoldingRegisters, FuncCodeReadInputRegisters,
      FuncCodeReadWriteMultipleRegisters, FuncCodeWriteSingleCoil, FuncCodeWriteSingleRegister,
      FuncCodeWriteMultipleCoils, FuncCodeWriteMultipleRegisters, FuncCodeMaskWriteRegister]
    rw [if_neg (by omega)]
    split_ifs <;> first
      | rfl
      | omega
      | (exfalso; omega)
      | (congr 1; omega)
  · intro h5
    exact shiftLeft8_lor_eq h5

/-- Witness for C4: a ReadHoldingRegisters request with count 11 predicts a
27-byte response. -/
theorem claim_C4_response_length_witness :
    calculateResponseLength [0x11, 0x03, 0x00, 0x00, 0x00, 0x0B] = some 27 := by
  have h := claim_C4_response_length [0x11, 0x03, 0x00, 0x00, 0x00, 0x0B] (by norm_num)
  rw [h.1]
  decide

/-- C5 (code bug): with the ReadCoils request `11 01 00 13 00 13 8E 92`
(predicted response length 8) and 4 bytes already read: when the response
function byte is the exception code 0x81 (= request[1] | 0x80) the Send
loop reads no further bytes (total stays 4 instead of the claimed 5),
because the source computes `functionFail := aduRequest[1] & 0x80 = 0x00`;
conversely a response whose function byte is 0x00 is treated as the
exception frame and read up to 5 bytes instead of being returned as-is. -/
theorem claim_C5_exception_branch_bug :
    rtuSendReadTotal [0x11, 0x01, 0x00, 0x13, 0x00, 0x13, 0x8E, 0x92]
      [0x11, 0x81, 0x02, 0xC1] 4 = some 4 ∧
    rtuSendReadTotal [0x11, 0x01, 0x00, 0x13, 0x00, 0x13, 0x8E, 0x92]
      [0x11, 0x00, 0x02, 0xC1] 4 = some 5 := by
  decide

/-- C6 counterexample: with limit 3 and a fresh id, the third `Get` call
does not fire the blocked callback (it fires on the fourth call). -/
theorem claim_C6_counterexample :
    (let bl0 : Blacklist := ⟨3, true, fun _ => 0, true⟩
     let s1 := bl0.Get 7
     let s2 := s1.1.Get 7
     let s3 := s2.1.Get 7
     let s4 := s3.1.Get 7
     s3.2.2 = false ∧ s4.2.2 = true) := by
  decide

/-- C6 amended: with limit 3 and a counter starting at 0, four successive
`Get` calls return (false,1), (false,2), (false,3), (true,4), and the
blocked callback fires exactly once, on the fourth call — the call whose
stored count equals the limit before incrementing, i.e. the transition
from count = limit to count = limit + 1. -/
theorem claim_C6_amended_thm :
    (let bl0 : Blacklist := ⟨3, true, fun _ => 0, true⟩
     let s1 := bl0.Get 7
     let s2 := s1.1.Get 7
     let s3 := s2.1.Get 7
     let s4 := s3.1.Get 7
     s1.2 = ((false, 1), false) ∧ s2.2 = ((false, 2), false) ∧
     s3.2 = ((false, 3), false) ∧ s4.2 = ((true, 4), true)) := by
  decide

/-- C7: ReadCoils on the RTU-mode MBClient and on RTUClient returns an
error exactly when the quantity is outside 1..2000; for an in-range
quantity both return the RTU encoding of the PDU `01 | address | quantity`
(big-endian words) with no error. -/
theorem claim_C7_readcoils_bounds (id address quantity : Nat) :
    ((MBClient.ReadCoils (rtuEncodeResult id) address quantity).2 = true ↔
      (quantity < 1 ∨ quantity > 2000)) ∧
    ((RTUClient.ReadCoils id address quantity).2 = true ↔
      (quantity < 1 ∨ quantity > 2000)) ∧
    (1 ≤ quantity → quantity ≤ 2000 →
      ∃ adu, rtuEncode id ⟨FuncCodeReadCoils, dataBlock [address, quantity]⟩ = some adu ∧
        MBClient.ReadCoils (rtuEncodeResult id) address quantity = (adu, false) ∧
        RTUClient.ReadCoils id address quantity = (adu, false)) := by
  have henc := @rtuEncode_eq id FuncCodeReadCoils (dataBlock [address, quantity])
    (by simp [dataBlock])
  unfold MBClient.ReadCoils RTUClient.ReadCoils
  by_cases hq : quantity < 1 ∨ quantity > 2000
  · rw [if_pos hq]
    exact ⟨by simpa using hq, by simpa using hq, fun h1 h2 => by omega⟩
  · rw [if_neg hq]
    simp only [rtuEncodeResult, henc]
    exact ⟨by simpa using hq, by simpa using hq, fun _ _ => ⟨_, henc, rfl, rfl⟩⟩

/-- Witness for C7 at id 0x11, address 0x13, quantity 0x13. -/
theorem claim_C7_readcoils_bounds_witness :
    ∃ adu, rtuEncode 0x11 ⟨FuncCodeReadCoils, dataBlock [0x13, 0x13]⟩ = some adu ∧
      MBClient.ReadCoils (rtuEncodeResult 0x11) 0x13 0x13 = (adu, false) ∧
      RTUClient.ReadCoils 0x11 0x13 0x13 = (adu, false) :=
  (claim_C7_readcoils_bounds 0x11 0x13 0x13).2.2 (by norm_num) (by norm_num)

/-- C8 (code bug): asciiClient.Decode panics (out-of-range slice, modelled
`none`) instead of returning an error on short frames whose present
characters are valid hex: a 3-byte frame `":41"` panics reading the
function-code chars, and a 5-byte frame `":4103"` panics slicing the data
field. -/
theorem claim_C8_short_frame_panic :
    asciiDecode [58, 52, 49] = none ∧ asciiDecode [58, 52, 49, 48, 51] = none := by
  decide

/-- C9: WriteSingleCoilBool equals WriteSingleCoil at value 0xFF00 (true)
or 0x0000 (false), for any framer `Encode` in the same client state. -/
theorem claim_C9_coil_bool_refines (encode : ProtocolDataUnit → List Nat × Bool)
    (address : Nat) (b : Bool) :
    MBClient.WriteSingleCoilBool encode address b =
      MBClient.WriteSingleCoil encode address (if b then 0xFF00 else 0x0000) := by
  cases b <;> simp [MBClient.WriteSingleCoilBool, MBClient.WriteSingleCoil]

/-- C10: when the checksum / length-field checks pass but the configured-id
check fails, both serial and TCP binary decoders return the decoded PDU
together with the error: RTU on any frame of length ≥ 4 with a valid CRC
and a foreign first byte, TCP on any frame passing the length-field check
with a foreign byte at offset 6. -/
theorem claim_C10_decode_id_mismatch :
    (∀ (id : Nat) (adu : List Nat), 4 ≤ adu.length →
      (adu.getD (adu.length - 1) 0) <<< 8 ||| adu.getD (adu.length - 2) 0 =
        crc16 (adu.take (adu.length - 2)) →
      id ≠ adu.getD 0 0 →
      rtuDecode id adu =
        some (some ⟨adu.getD 1 0, (adu.take (adu.length - 2)).drop 2⟩, true)) ∧
    (∀ (id : Nat) (adu : List Nat), 8 ≤ adu.length →
      adu.length - 7 = (be16 adu 4 + 65535) % 65536 →
      id ≠ adu.getD 6 0 →
      tcpDecode id adu = some (some ⟨adu.getD 7 0, adu.drop 8⟩, true)) := by
  constructor
  · intro id adu hlen hcrc hid
    simp only [rtuDecode]
    rw [if_neg (by omega), if_neg (not_ne_iff.mpr hcrc), if_neg (by omega),
      decide_eq_true hid]
  · intro id adu hlen hfield hid
    simp only [tcpDecode, tcpHeaderSize]
    rw [if_neg (by omega), if_neg (by rw [not_or]; exact ⟨by omega, not_ne_iff.mpr hfield⟩),
      decide_eq_true hid]

/-- Witness for C10: an RTU frame from slave 0x10 with valid CRC and a TCP
frame with unit id 0x10, both decoded by a client configured with id 0x11. -/
theorem claim_C10_decode_id_mismatch_witness :
    rtuDecode 0x11 [0x10, 0x01, 205, 176] = some (some ⟨0x01, []⟩, true) ∧
    tcpDecode 0x11 [0, 1, 0, 0, 0, 3, 0x10, 3, 7] = some (some ⟨3, [7]⟩, true) :=
  ⟨claim_C10_decode_id_mismatch.1 0x11 [0x10, 0x01, 205, 176]
      (by norm_num) (by decide) (by decide),
    claim_C10_decode_id_mismatch.2 0x11 [0, 1, 0, 0, 0, 3, 0x10, 3, 7]
      (by norm_num) (by decide) (by decide)⟩

end Modbus
